import Mathlib

/-
Verification development for the lambda-cron-msn-feed repository.

The embedding follows the source files:
  src/drivers/wordpress.js  (WordPressDriver: parsing, cleaning, ingestion)
  src/utils/database.js     (DatabaseManager: the ingested_content table ops)
  src/index.js              (runFeedConverter: publication loop, feed window)

Modelling conventions, stated once here:
  - HTML documents are modelled as trees of HNode values; the cheerio calls
    of wordpress.js become recursive functions on those trees.  Where the
    source serializes nodes to an HTML string and immediately re-parses it
    (stripHtml composed with outerHTML), the composition is modelled directly
    on node lists, since serialize-then-parse is the identity on well formed
    trees.
  - JS Date values are modelled as integer timestamps; SQL NOW() and
    CURRENT_TIMESTAMP are a Nat parameter called now threaded by the caller.
  - Nullable columns and optional JS fields are Option values; the JS loose
    comparison item.item_modified_at != dbContent.item_modified_at on
    string-or-null values coincides with inequality of Option String.
  - The sha256 digest of generateHash is modelled by its preimage string,
    which is injective on the inputs the driver hashes.
  - The MySQL table is a List Row; SELECT ... WHERE is List.filter, UPDATE is
    List.map guarded by the WHERE predicate, INSERT is List append, and
    rows[0] of a SELECT is List.head?.
-/

namespace Feed

/-- HTML node: an element with tag, class list, attribute list and children,
or a text node.  This is the tree cheerio.load builds in wordpress.js. -/
inductive HNode where
  | elem (tag : String) (classes : List String) (attrList : List (String × String)) (children : List HNode)
  | text (s : String)

/-- Children of a node; a text node has none. -/
def childrenOf : HNode → List HNode
  | .elem _ _ _ ch => ch
  | .text _ => []

/-- True on element nodes; cheerio traversal ops such as next, nextAll and
prevAll walk element siblings only, skipping text nodes. -/
def isElem : HNode → Bool
  | .elem _ _ _ _ => true
  | .text _ => false

/-- True when the node is an element carrying the given class. -/
def hasClass (n : HNode) (c : String) : Bool :=
  match n with
  | .elem _ cls _ _ => cls.contains c
  | .text _ => false

/-- True when the node is an element with the given tag. -/
def tagIs (n : HNode) (t : String) : Bool :=
  match n with
  | .elem tg _ _ _ => tg == t
  | .text _ => false

/-- First attribute value for the key, as jQuery attr reads it. -/
def attrOf (n : HNode) (k : String) : Option String :=
  match n with
  | .elem _ _ attrList _ => (attrList.find? (fun kv => kv.1 == k)).map (fun kv => kv.2)
  | .text _ => none

/-- Selector figure.wp-block-image of parseSlideShow: the nodes the slide
loop iterates, and the stop condition of the per slide content walk. -/
def isSlideFig (n : HNode) : Bool :=
  tagIs n "figure" && hasClass n "wp-block-image"

/-- Selector figure.wp-block-image.size-large: the node the intro extraction
of parseSlideShow anchors on. -/
def isSizeLargeFig (n : HNode) : Bool :=
  isSlideFig n && hasClass n "size-large"

/-- Selector h2.wp-block-heading: the slide title nodes. -/
def isHeadingH2 (n : HNode) : Bool :=
  tagIs n "h2" && hasClass n "wp-block-heading"

mutual

/-- Concatenated text content of a node, as cheerio text() reads it. -/
def textOf : HNode → String
  | .text s => s
  | .elem _ _ _ ch => textList ch

/-- Concatenated text content of a node list. -/
def textList : List HNode → String
  | [] => ""
  | n :: rest => textOf n ++ textList rest

end

/-- Rendered class attribute of an element. -/
def renderClasses (cls : List String) : String :=
  if cls.isEmpty then "" else " class=\"" ++ String.intercalate " " cls ++ "\""

/-- Rendered non class attributes of an element. -/
def renderAttrList (attrList : List (String × String)) : String :=
  String.join (attrList.map (fun kv => " " ++ kv.1 ++ "=\"" ++ kv.2 ++ "\""))

mutual

/-- Serialization of one node: jQuery prop outerHTML. -/
def renderNode : HNode → String
  | .text s => s
  | .elem tg cls attrList ch =>
      "<" ++ tg ++ renderClasses cls ++ renderAttrList attrList ++ ">" ++
        renderList ch ++ "</" ++ tg ++ ">"

/-- Serialization of a node list: concatenated outerHTML, as the string
accumulation loops of parseSlideShow build it. -/
def renderList : List HNode → String
  | [] => ""
  | n :: rest => renderNode n ++ renderList rest

end

/-- Whitespace class of the regex in stripHtml. -/
def jsWs (c : Char) : Bool :=
  c == ' ' || c == '\t' || c == '\n' || c == '\r'

/-- Maximal non whitespace runs of a character list, the accumulator
holding the current run reversed. -/
def wsTokens : List Char → List Char → List (List Char)
  | [], cur => if cur.isEmpty then [] else [cur.reverse]
  | c :: rest, cur =>
      if jsWs c then
        (if cur.isEmpty then wsTokens rest [] else cur.reverse :: wsTokens rest [])
      else wsTokens rest (c :: cur)

/-- The replace and trim steps of stripHtml in wordpress.js: collapse every
whitespace run to one space and trim the ends, by joining the maximal non
whitespace runs with single spaces, which is what the regex replacement
composed with trim produces. -/
def collapseWs (s : String) : String :=
  String.intercalate " " ((wsTokens s.data []).map (fun cs => String.mk cs))

/-- stripHtml of wordpress.js applied to the serialization of a node list:
load the HTML, take its text, collapse whitespace, trim.  Serialization then
parsing is the identity on trees, so the text is read off the nodes. -/
def stripHtmlOf (ns : List HNode) : String :=
  collapseWs (textList ns)

mutual

/-- The sidebar removal step of parseSlideShow: every element with class
entry__sidebar is removed from the tree, subtree included. -/
def removeSidebars : List HNode → List HNode
  | [] => []
  | n :: rest => removeSidebarNode n ++ removeSidebars rest

/-- Sidebar removal on one node. -/
def removeSidebarNode : HNode → List HNode
  | .text s => [.text s]
  | .elem tg cls attrList ch =>
      if cls.contains "entry__sidebar" then []
      else [.elem tg cls attrList (removeSidebars ch)]

end

mutual

/-- The div unwrap step of parseSlideShow: contents of every div replace the
div itself.  A div with no contents has nothing selected to unwrap it and so
stays, matching the cheerio contents-unwrap combination. -/
def unwrapDivs : List HNode → List HNode
  | [] => []
  | n :: rest => unwrapDivNode n ++ unwrapDivs rest

/-- Div unwrap on one node. -/
def unwrapDivNode : HNode → List HNode
  | .text s => [.text s]
  | .elem tg cls attrList ch =>
      let ch2 := unwrapDivs ch
      if tg == "div" then (if ch2.isEmpty then [.elem tg cls attrList []] else ch2)
      else [.elem tg cls attrList ch2]

end

mutual

/-- First img descendant in document order: the element whose attributes the
slide loop reads after find img. -/
def findImgList : List HNode → Option HNode
  | [] => none
  | n :: rest =>
      match findImgNode n with
      | some i => some i
      | none => findImgList rest

/-- First img in the subtree of one node, the node itself included. -/
def findImgNode : HNode → Option HNode
  | .text _ => none
  | .elem tg cls attrList ch =>
      if tg == "img" then some (.elem tg cls attrList ch)
      else findImgList ch

end

mutual

/-- Text of every descendant with class wp-element-caption, concatenated in
document order: find wp-element-caption followed by text() on the match. -/
def captionList : List HNode → String
  | [] => ""
  | n :: rest => captionNode n ++ captionList rest

/-- Caption text contributed by the subtree of one node. -/
def captionNode : HNode → String
  | .text _ => ""
  | .elem _ cls _ ch =>
      (if cls.contains "wp-element-caption" then textList ch else "") ++ captionList ch

end

/-- The image url resolution of the slide loop: attr src, else attr
data-src, else null, under JS truthiness, so an empty string falls through. -/
def resolveUrl (src dataSrc : Option String) : Option String :=
  match src with
  | some s =>
      if s ≠ "" then some s
      else
        match dataSrc with
        | some d => if d ≠ "" then some d else none
        | none => none
  | none =>
      match dataSrc with
      | some d => if d ≠ "" then some d else none
      | none => none

/-- One slide of a parsed slideshow, with the fields the slide loop pushes. -/
structure Slide where
  url : String
  title : String
  text : String
  description : String
  attribution : String
deriving DecidableEq, Repr

/-- The alt text fallback of the slide loop. -/
def descriptionOf (altText : String) : String :=
  if altText == "" then "Image Provided by Source" else altText

/-- First following h2.wp-block-heading among the element siblings, paired
with the element siblings after it: nextAll h2.wp-block-heading first. -/
def findH2After : List HNode → Option (HNode × List HNode)
  | [] => none
  | n :: rest => if isHeadingH2 n then some (n, rest) else findH2After rest

/-- Slide body: outerHTML of the element siblings after the heading up to
the next figure.wp-block-image, exclusive, as the while loop collects it. -/
def slideText (after : List HNode) : String :=
  renderList (after.takeWhile (fun n => !(isSlideFig n)))

/-- The body of the slide loop for one figure given the sibling nodes after
it: skip figures with no img or no resolvable url, else build the slide. -/
def mkSlide (fig : HNode) (siblingsAfter : List HNode) : Option Slide :=
  match findImgList (childrenOf fig) with
  | none => none
  | some img =>
      match resolveUrl (attrOf img "src") (attrOf img "data-src") with
      | none => none
      | some url =>
          let altText := (attrOf img "alt").getD ""
          let attribution := captionList (childrenOf fig)
          let elSibs := siblingsAfter.filter isElem
          match findH2After elSibs with
          | none =>
              some { url := url, title := "", text := "",
                     description := descriptionOf altText, attribution := attribution }
          | some (h2, after) =>
              some { url := url, title := (textOf h2).trim, text := slideText after,
                     description := descriptionOf altText, attribution := attribution }

mutual

/-- All slides of a node forest in document order.  For each
figure.wp-block-image found anywhere, its slide is built from its following
siblings, matching the each loop over the selector. -/
def slidesForest : List HNode → List Slide
  | [] => []
  | n :: rest =>
      (if isSlideFig n then (mkSlide n rest).toList else []) ++
        slidesNode n ++ slidesForest rest

/-- Slides nested below one node. -/
def slidesNode : HNode → List Slide
  | .text _ => []
  | .elem _ _ _ ch => slidesForest ch

end

mutual

/-- Intro anchor search of parseSlideShow: first figure.wp-block-image.size-large
in document order; returns the element siblings before it, in document
order, the nodes whose outerHTML the prevAll loop accumulates.  The
accumulator carries the preceding siblings of the current level in reverse. -/
def firstSLForest : List HNode → List HNode → Option (List HNode)
  | _, [] => none
  | acc, n :: rest =>
      if isSizeLargeFig n then some (acc.reverse.filter isElem)
      else
        match firstSLNode n with
        | some prevs => some prevs
        | none => firstSLForest (n :: acc) rest

/-- Intro anchor search below one node. -/
def firstSLNode : HNode → Option (List HNode)
  | .text _ => none
  | .elem _ _ _ ch => firstSLForest [] ch

end

/-- Result shape of parseContent and parseSlideShow. -/
structure ParsedContent where
  content : String
  isSlideShow : Bool
  images : List Slide
deriving DecidableEq, Repr

/-- parseSlideShow of wordpress.js: remove sidebars, unwrap divs, collect
the slides, then take as intro the stripped serialization of everything
before the first figure.wp-block-image.size-large, or of the whole document
when there is none. -/
def parseSlideShow (content : List HNode) : ParsedContent :=
  let doc := unwrapDivs (removeSidebars content)
  let images := slidesForest doc
  let introNodes :=
    match firstSLForest [] doc with
    | some prevs => prevs
    | none => doc
  { content := stripHtmlOf introNodes, isSlideShow := true, images := images }

/-- JS falsiness of the raw content argument of parseContent: a missing
field or the empty document. -/
def jsBlank : Option (List HNode) → Bool
  | none => true
  | some ns => ns.isEmpty

/-- parseContent of wordpress.js: empty input short circuits to an empty
article shape; the slideshow feed type goes through parseSlideShow; any
other feed type passes the body through unchanged. -/
def parseContent (content : Option (List HNode)) (feedType : String) : ParsedContent :=
  if jsBlank content then { content := "", isSlideShow := false, images := [] }
  else if feedType.toLower == "slideshow" then parseSlideShow (content.getD [])
  else { content := renderList (content.getD []), isSlideShow := false, images := [] }

/-- The WordPressDriver instance state set by its constructor.  The field
thumbnail appears because normalizePost reads this.thumbnail; no method of
the class ever assigns it, so the exported singleton leaves it none, the
model of the JS undefined. -/
structure DriverState where
  name : String
  supportedFormats : List String
  postsPerPage : Nat
  thumbnail : Option String

/-- The module level singleton of wordpress.js. -/
def wordPressDriver : DriverState :=
  { name := "WordPress", supportedFormats := ["rest-api"], postsPerPage := 20,
    thumbnail := none }

/-- generateHash of wordpress.js: the sha256 digest of name colon guid,
modelled by the digested string itself (the digest is injective on these
inputs). -/
def generateHash (driver : DriverState) (guid : String) : String :=
  driver.name ++ ":" ++ guid

/-- The cleaned post cleanPostContent builds and ingest stores as
full_content.  The content field holds the cleaned body as a parsed tree;
the excerpt holds the cleaned excerpt, kept serialized as the code does. -/
structure CleanedPost where
  id : String
  date : Int
  date_gmt : String
  modified : String
  modified_gmt : String
  guid : String
  slug : String
  link : String
  title : String
  author : String
  categories : List String
  thumbnail : String
  content : Option (List HNode)
  excerpt : Option String

/-- The normalized post normalizePost returns, the unit of processed_data
and of the output feed. -/
structure NormPost where
  title : String
  shortTitle : String
  description : Option String
  content : String
  link : String
  guid : String
  pubDate : Int
  author : String
  categories : List String
  isSlideShow : Bool
  thumbnail : Option String
  featuredImage : Option String
  images : List Slide
deriving DecidableEq, Repr

/-- normalizePost of wordpress.js: parse the content for the feed type and
assemble the feed item fields; thumbnail and featuredImage read the driver
state field this.thumbnail. -/
def normalizePost (driver : DriverState) (post : CleanedPost) (feedType : String) : NormPost :=
  let parsedContent := parseContent post.content feedType
  { title := post.title, shortTitle := post.title, description := post.excerpt,
    content := parsedContent.content, link := post.link, guid := post.guid,
    pubDate := post.date, author := post.author, categories := post.categories,
    isSlideShow := parsedContent.isSlideShow, thumbnail := driver.thumbnail,
    featuredImage := driver.thumbnail, images := parsedContent.images }

/-- decodeHtmlEntities of wordpress.js loads the text into cheerio and reads
it back; on the plain title and text fragments it is applied to this is the
identity (entity tables are a wire format detail outside the claims). -/
def decodeHtmlEntities (s : String) : String := s

mutual

/-- Script removal of cleanHtmlContent. -/
def removeScripts : List HNode → List HNode
  | [] => []
  | n :: rest => removeScriptNode n ++ removeScripts rest

/-- Script removal on one node. -/
def removeScriptNode : HNode → List HNode
  | .text s => [.text s]
  | .elem tg cls attrList ch =>
      if tg == "script" then [] else [.elem tg cls attrList (removeScripts ch)]

end

/-- True when a class value contains ad-dog as a substring, the attribute
substring selector of cleanHtmlContent. -/
def hasAdDogClass (cls : List String) : Bool :=
  cls.any (fun c => (c.splitOn "ad-dog").length != 1)

mutual

/-- Removal of div elements whose class attribute contains ad-dog. -/
def removeAdDogs : List HNode → List HNode
  | [] => []
  | n :: rest => removeAdDogNode n ++ removeAdDogs rest

/-- Ad removal on one node. -/
def removeAdDogNode : HNode → List HNode
  | .text s => [.text s]
  | .elem tg cls attrList ch =>
      if tg == "div" && hasAdDogClass cls then []
      else [.elem tg cls attrList (removeAdDogs ch)]

end

/-- cleanHtmlContent of wordpress.js: drop script tags, drop ad-dog divs,
then unwrap the html, head and body wrappers cheerio added, which on an
already fragment shaped tree leaves the remaining nodes as they are. -/
def cleanHtmlContent (ns : List HNode) : List HNode :=
  removeAdDogs (removeScripts ns)

/-- A raw record of the WordPress REST listing as ingest receives it.  The
rendered and yoast fields a malformed payload may lack are Options; reading
through a missing one is the thrown TypeError of the JS. -/
structure RawRecord where
  id : String
  date : Int
  date_gmt : String
  modified : String
  modified_gmt : String
  slug : String
  link : String
  author : Nat
  guid_rendered : Option String
  title_rendered : Option String
  yoast_author : Option String
  yoast_sections : Option (List String)
  yoast_thumbnail : Option String
  content_rendered : Option (List HNode)
  excerpt_rendered : Option (List HNode)

/-- cleanPostContent of wordpress.js: project the raw record onto the
cleaned shape, decoding the title and cleaning content and excerpt.  A
record missing the guid, title or yoast objects makes the field access
throw, modelled as the error branch. -/
def cleanPostContent (post : RawRecord) : Except String CleanedPost :=
  match post.guid_rendered, post.title_rendered, post.yoast_author,
      post.yoast_sections, post.yoast_thumbnail with
  | some g, some t, some ya, some ys, some yt =>
      .ok { id := post.id, date := post.date, date_gmt := post.date_gmt,
            modified := post.modified, modified_gmt := post.modified_gmt,
            guid := g, slug := post.slug, link := post.link,
            title := decodeHtmlEntities t, author := ya, categories := ys,
            thumbnail := yt,
            content := post.content_rendered.map cleanHtmlContent,
            excerpt := post.excerpt_rendered.map (fun e => renderList (cleanHtmlContent e)) }
  | _, _, _, _, _ => .error "Cannot read properties of undefined"

/-- The status column of ingested_content. -/
inductive Status where
  | pending
  | published
  | skipped
deriving DecidableEq, Repr

/-- The metadata summary ingest stores with each item. -/
structure Metadata where
  id : String
  title : String
  date : Int
  modified : String
  link : String
  author : Nat
deriving DecidableEq, Repr

/-- One row of the ingested_content table of database.js. -/
structure Row where
  content_hash : String
  source : String
  guid : String
  platform : String
  feed_type : String
  status : Status
  ingested_at : Nat
  published_at : Option Nat
  skipped_at : Option Nat
  skip_reason : Option String
  metadata : Metadata
  full_content : Option CleanedPost
  processed_data : Option NormPost
  item_published_at : Option String
  item_modified_at : Option String

/-- The configuration fields the store and engine read. -/
structure Config where
  EXTERNAL_FEED_SOURCE : String
  EXTERNAL_FEED_PLATFORM : String
  EXTERNAL_FEED_TYPE : String
  FEED_ITEMS_PER_RUN : Nat
  FEED_MAX_TOTAL_ITEMS : Nat

/-- The item object ingest hands to insertItemDirect. -/
structure IngestItem where
  guid : String
  content_hash : String
  item_published_at : Option String
  item_modified_at : Option String
  metadata : Metadata
  full_content : Option CleanedPost

/-- getItemByHash of database.js: SELECT by content hash and source, first
row or null. -/
def getItemByHash (db : List Row) (contentHash source : String) : Option Row :=
  (db.filter (fun r => decide (r.content_hash = contentHash ∧ r.source = source))).head?

/-- isNewSource of database.js: the count of rows matching the source,
platform and feed type triple is zero. -/
def isNewSource (db : List Row) (config : Config) : Bool :=
  (db.filter (fun r => decide (r.source = config.EXTERNAL_FEED_SOURCE ∧
      r.platform = config.EXTERNAL_FEED_PLATFORM ∧
      r.feed_type = config.EXTERNAL_FEED_TYPE))).length == 0

/-- insertItem of database.js: INSERT of a fresh pending row; the columns
the statement does not set keep their defaults, CURRENT_TIMESTAMP for
ingested_at and NULL for the rest. -/
def insertItem (db : List Row) (item : IngestItem) (config : Config) (now : Nat) : List Row :=
  db ++ [{ content_hash := item.content_hash, source := config.EXTERNAL_FEED_SOURCE,
           guid := item.guid, platform := config.EXTERNAL_FEED_PLATFORM,
           feed_type := config.EXTERNAL_FEED_TYPE, status := Status.pending,
           ingested_at := now, published_at := none, skipped_at := none,
           skip_reason := none, metadata := item.metadata,
           full_content := item.full_content, processed_data := none,
           item_published_at := item.item_published_at,
           item_modified_at := item.item_modified_at }]

/-- updateItem of database.js: UPDATE of metadata, full_content, the item
timestamps and status.  The WHERE clause of the source matches on
content_hash alone, with no source condition, and that is modelled as
written. -/
def updateItem (db : List Row) (item : IngestItem) (status : Status) : List Row :=
  db.map (fun r =>
    if r.content_hash = item.content_hash then
      { r with metadata := item.metadata, full_content := item.full_content,
               item_published_at := item.item_published_at,
               item_modified_at := item.item_modified_at, status := status }
    else r)

/-- insertItemDirect of database.js: look the item up by hash and source;
insert when absent; when present and the upstream modified timestamp
differs, update, choosing the kept status as the code writes it: the prior
status when the stored timestamp was null, pending otherwise.  Returns the
new table and whether an insert happened. -/
def insertItemDirect (db : List Row) (item : IngestItem) (config : Config) (now : Nat) :
    List Row × Bool :=
  match getItemByHash db item.content_hash config.EXTERNAL_FEED_SOURCE with
  | none => (insertItem db item config now, true)
  | some dbContent =>
      if item.item_modified_at ≠ dbContent.item_modified_at then
        (updateItem db item
          (match dbContent.item_modified_at with
           | none => dbContent.status
           | some _ => Status.pending), false)
      else (db, false)

/-- updateItemStatus of database.js: UPDATE of status scoped by content hash
and source; published also sets published_at, skipped also sets skipped_at
and skip_reason, and processed_data is written only when provided. -/
def updateItemStatus (db : List Row) (contentHash source : String) (status : Status)
    (skipReason : Option String) (processedData : Option NormPost) (now : Nat) : List Row :=
  db.map (fun r =>
    if r.content_hash = contentHash ∧ r.source = source then
      { r with status := status,
               published_at := if status = Status.published then some now else r.published_at,
               skipped_at := if status = Status.skipped then some now else r.skipped_at,
               skip_reason := if status = Status.skipped then skipReason else r.skip_reason,
               processed_data :=
                 match processedData with
                 | some pd => some pd
                 | none => r.processed_data }
    else r)

/-- getPendingItems of database.js: pending rows of the source and feed
type, oldest ingested first, up to the limit. -/
def getPendingItems (db : List Row) (limit : Nat) (config : Config) : List Row :=
  ((db.filter (fun r => decide (r.source = config.EXTERNAL_FEED_SOURCE ∧
      r.status = Status.pending ∧ r.feed_type = config.EXTERNAL_FEED_TYPE))).mergeSort
    (fun a b => a.ingested_at ≤ b.ingested_at)).take limit

/-- The row invariants of the data model section of the design: published
rows carry processed data and a publish timestamp, skipped rows a reason and
a skip timestamp, pending rows none of them. -/
def rowInv (r : Row) : Prop :=
  (r.status = Status.published → r.processed_data.isSome ∧ r.published_at.isSome) ∧
  (r.status = Status.skipped → r.skip_reason.isSome ∧ r.skipped_at.isSome) ∧
  (r.status = Status.pending →
    r.processed_data = none ∧ r.published_at = none ∧ r.skipped_at = none)

instance (r : Row) : Decidable (rowInv r) := by
  unfold rowInv
  infer_instance

/-- The item ingest builds for one raw record before storing it: clean the
post, hash its id, tag the upstream timestamps with the trailing Z, and keep
the cleaned post as full content.  A record the cleaning throws on makes the
whole construction throw, as in the source, where no per record handler
exists. -/
def mkIngestItem (post : RawRecord) : Except String IngestItem :=
  match cleanPostContent post with
  | .error e => .error e
  | .ok cleanedPost =>
      .ok { guid := cleanedPost.id,
            content_hash := generateHash wordPressDriver cleanedPost.id,
            item_published_at := some (post.date_gmt ++ "Z"),
            item_modified_at := some (post.modified_gmt ++ "Z"),
            metadata := { id := cleanedPost.id, title := cleanedPost.title,
                          date := post.date, modified := post.modified,
                          link := post.link, author := post.author },
            full_content := some cleanedPost }

/-- True when cleaning the record succeeds. -/
def recordOk (post : RawRecord) : Bool :=
  match cleanPostContent post with
  | .ok _ => true
  | .error _ => false

/-- The counters ingest returns. -/
structure IngestResult where
  totalIngested : Nat
  totalNew : Nat
  pagesProcessed : Nat
deriving DecidableEq, Repr

/-- The per page record loop of ingest: for each post build the item and
store it through insertItemDirect, counting every processed record and the
inserted ones.  An error from a record propagates out of the loop at once. -/
def ingestPosts (config : Config) (now : Nat) :
    List RawRecord → List Row → Nat → Nat → Except String (List Row × Nat × Nat)
  | [], db, seen, nw => .ok (db, seen, nw)
  | post :: rest, db, seen, nw =>
      match mkIngestItem post with
      | .error e => .error e
      | .ok item =>
          let res := insertItemDirect db item config now
          ingestPosts config now rest res.1 (seen + 1) (if res.2 then nw + 1 else nw)

/-- The page loop of ingest: pages are fetched and processed sequentially
until the upstream total page signal is exhausted; the pages the upstream
yields are the argument list. -/
def ingestPages (config : Config) (now : Nat) :
    List (List RawRecord) → List Row → Nat → Nat → Except String (List Row × Nat × Nat)
  | [], db, seen, nw => .ok (db, seen, nw)
  | posts :: rest, db, seen, nw =>
      match ingestPosts config now posts db seen nw with
      | .error e => .error e
      | .ok (db2, seen2, nw2) => ingestPages config now rest db2 seen2 nw2

/-- ingest of wordpress.js: run the page loop over the upstream pages and
report the counters; any error inside the loop is caught once at the
function boundary, wrapped and rethrown. -/
def ingest (config : Config) (now : Nat) (pages : List (List RawRecord)) (db : List Row) :
    Except String (List Row × IngestResult) :=
  match ingestPages config now pages db 0 0 with
  | .error e => .error ("WordPress ingestion failed: " ++ e)
  | .ok (db2, seen, nw) =>
      .ok (db2, { totalIngested := seen, totalNew := nw, pagesProcessed := pages.length })

/-- fetchContent of wordpress.js: read the stored row by hash and source and
return its full content; a missing row or missing content throws, and the
catch wraps the message. -/
def fetchContent (db : List Row) (contentHash : String) (config : Config) :
    Except String CleanedPost :=
  match getItemByHash db contentHash config.EXTERNAL_FEED_SOURCE with
  | none => .error ("WordPress content fetch failed: Content not found in database: " ++ contentHash)
  | some dbItem =>
      match dbItem.full_content with
      | some c => .ok c
      | none => .error ("WordPress content fetch failed: No full content stored for hash: " ++ contentHash)

/-- The processing limit of runFeedConverter: the fixed onboarding ceiling
of 20 for a new source, the configured per run limit otherwise. -/
def processingLimit (isNew : Bool) (config : Config) : Nat :=
  if isNew then 20 else config.FEED_ITEMS_PER_RUN

/-- The mutable state of the publication loop of runFeedConverter. -/
structure RunState where
  db : List Row
  processedCount : Nat
  skippedCount : Nat
  feedItems : List NormPost
  processedContentHashes : List String

/-- One iteration of the publication loop: fetch the stored content,
normalize it, consult the cleanliness decision, and transition the row;
any error while fetching marks just this row skipped with the wrapped
message.  The cleanliness oracle is the external capability of the design
and is passed as a function. -/
def processOne (config : Config) (clean : NormPost → Bool) (now : Nat)
    (st : RunState) (item : Row) : RunState :=
  match fetchContent st.db item.content_hash config with
  | .error msg =>
      { st with db := updateItemStatus st.db item.content_hash item.source Status.skipped
                  (some ("error: " ++ msg)) none now,
                skippedCount := st.skippedCount + 1 }
  | .ok fullContent =>
      let normalizedPost := normalizePost wordPressDriver fullContent config.EXTERNAL_FEED_TYPE
      if clean normalizedPost then
        { st with feedItems := st.feedItems ++ [normalizedPost],
                  processedContentHashes := st.processedContentHashes ++ [item.content_hash],
                  db := updateItemStatus st.db item.content_hash item.source Status.published
                    none (some normalizedPost) now,
                  processedCount := st.processedCount + 1 }
      else
        { st with db := updateItemStatus st.db item.content_hash item.source Status.skipped
                    (some "profanity") none now,
                  skippedCount := st.skippedCount + 1 }

/-- The publication loop over the selected pending items. -/
def runLoop (config : Config) (clean : NormPost → Bool) (now : Nat)
    (st : RunState) : List Row → RunState
  | [] => st
  | item :: rest => runLoop config clean now (processOne config clean now st item) rest

/-- The moving window step of runFeedConverter: concatenate the newly
published items with the previously published ones; past the maximum, sort
the whole set by publish date, most recent first, and keep the first
maxTotal. -/
def movingWindow (feedItems existingItems : List NormPost) (maxTotal : Nat) : List NormPost :=
  let allFeedItems := feedItems ++ existingItems
  if maxTotal < allFeedItems.length then
    (allFeedItems.mergeSort (fun a b => decide (b.pubDate ≤ a.pubDate))).take maxTotal
  else allFeedItems

/-! Helper lemmas shared by the claim theorems. -/

/-- Mapping a function that does not change the filter key commutes with
taking the first filtered element. -/
lemma head_filter_map_of_key {α : Type} (f : α → α) (p : α → Bool)
    (hp : ∀ a, p (f a) = p a) (l : List α) :
    ((l.map f).filter p).head? = ((l.filter p).head?).map f := by
  induction l with
  | nil => rfl
  | cons a t ih =>
      cases hpa : p a with
      | true => simp [List.filter_cons, hp, hpa]
      | false => simpa [List.filter_cons, hp, hpa] using ih

/-- A successful getItemByHash lookup returns a member row matching the key. -/
lemma getItemByHash_some (db : List Row) (h s : String) (r : Row)
    (hfind : getItemByHash db h s = some r) :
    r ∈ db ∧ r.content_hash = h ∧ r.source = s := by
  unfold getItemByHash at hfind
  have hmem : r ∈ db.filter (fun r => decide (r.content_hash = h ∧ r.source = s)) := by
    cases e : db.filter (fun r => decide (r.content_hash = h ∧ r.source = s)) with
    | nil =>
        rw [e] at hfind
        exact absurd hfind (by simp)
    | cons x t =>
        rw [e] at hfind
        simp only [List.head?_cons, Option.some.injEq] at hfind
        subst hfind
        exact List.mem_cons_self x t
  refine ⟨List.mem_of_mem_filter hmem, ?_⟩
  have := List.of_mem_filter hmem
  simpa using this

/-- An empty getItemByHash lookup means no row matches the key. -/
lemma getItemByHash_none_iff (db : List Row) (h s : String) :
    getItemByHash db h s = none ↔ ∀ r ∈ db, ¬(r.content_hash = h ∧ r.source = s) := by
  unfold getItemByHash
  rw [List.head?_eq_none_iff, List.filter_eq_nil_iff]
  simp

/-- updateItem commutes with a keyed lookup: the looked up row is the
updated image of the row the same lookup found before. -/
lemma getItemByHash_updateItem (db : List Row) (item : IngestItem) (st : Status)
    (h s : String) :
    getItemByHash (updateItem db item st) h s =
      (getItemByHash db h s).map (fun r =>
        if r.content_hash = item.content_hash then
          { r with metadata := item.metadata, full_content := item.full_content,
                   item_published_at := item.item_published_at,
                   item_modified_at := item.item_modified_at, status := st }
        else r) := by
  unfold getItemByHash updateItem
  refine head_filter_map_of_key _ _ (fun r => ?_) db
  by_cases hr : r.content_hash = item.content_hash
  · simp [hr]
  · simp [hr]

/-- String append cancels on the left. -/
lemma string_append_cancel_left (a b c : String) (h : a ++ b = a ++ c) : b = c := by
  have h2 := congrArg String.data h
  simp [String.data_append] at h2
  exact String.ext h2

/-! Claim theorems. -/

/-- Claim C9: for every content type flag, slideshow included, normalizing
an empty or missing raw body yields the empty article shape, with
isSlideShow false and no images, and never an error: parseContent short
circuits on JS-falsy input before the feed type is consulted. -/
theorem claim_C9_blank_content (feedType : String) :
    parseContent none feedType = { content := "", isSlideShow := false, images := [] } ∧
    parseContent (some []) feedType = { content := "", isSlideShow := false, images := [] } := by
  exact ⟨rfl, rfl⟩

/-- Claim C10: for every stored post and feed type, the normalized post has
no thumbnail and no featuredImage: both read the driver state field
this.thumbnail, which no method of WordPressDriver ever assigns. -/
theorem claim_C10_thumbnail_undefined (post : CleanedPost) (feedType : String) :
    (normalizePost wordPressDriver post feedType).thumbnail = none ∧
    (normalizePost wordPressDriver post feedType).featuredImage = none := by
  exact ⟨rfl, rfl⟩

/-- Claim C1 (amended): when reconciliation meets a stored row whose
upstream modified timestamp differs, it overwrites metadata, full content
and both item timestamps, and it sets status to pending exactly when the
stored modified timestamp was NON null, while a row whose stored timestamp
was null keeps its prior status.  This is the reverse of the claimed
direction; see the counterexample. -/
theorem claim_C1_reconcile_update (db : List Row) (item : IngestItem) (config : Config)
    (now : Nat) (r : Row)
    (hfind : getItemByHash db item.content_hash config.EXTERNAL_FEED_SOURCE = some r)
    (hdiff : item.item_modified_at ≠ r.item_modified_at) :
    (insertItemDirect db item config now).2 = false ∧
    getItemByHash (insertItemDirect db item config now).1 item.content_hash
        config.EXTERNAL_FEED_SOURCE =
      some { r with metadata := item.metadata, full_content := item.full_content,
                    item_published_at := item.item_published_at,
                    item_modified_at := item.item_modified_at,
                    status := match r.item_modified_at with
                              | none => r.status
                              | some _ => Status.pending } := by
  obtain ⟨-, hkey, -⟩ := getItemByHash_some db _ _ r hfind
  have hdir : insertItemDirect db item config now =
      (updateItem db item
        (match r.item_modified_at with
         | none => r.status
         | some _ => Status.pending), false) := by
    unfold insertItemDirect
    rw [hfind]
    simp [hdiff]
  rw [hdir]
  refine ⟨rfl, ?_⟩
  rw [getItemByHash_updateItem, hfind]
  simp [hkey]

/-- Concrete metadata for the C1 examples. -/
def c1Meta : Metadata :=
  { id := "p1", title := "t", date := 0, modified := "m0", link := "l", author := 1 }

/-- Concrete stored row for the C1 examples: a published row whose stored
upstream modified timestamp is non null. -/
def c1Row : Row :=
  { content_hash := "WordPress:p1", source := "src1", guid := "p1",
    platform := "wordpress", feed_type := "article", status := Status.published,
    ingested_at := 1, published_at := some 2, skipped_at := none,
    skip_reason := none, metadata := c1Meta, full_content := none,
    processed_data := none, item_published_at := some "2024-01-01T00:00:00Z",
    item_modified_at := some "2024-01-02T00:00:00Z" }

/-- Concrete re-ingested item for the C1 examples, with a changed upstream
modified timestamp. -/
def c1Item : IngestItem :=
  { guid := "p1", content_hash := "WordPress:p1",
    item_published_at := some "2024-01-01T00:00:00Z",
    item_modified_at := some "2024-01-03T00:00:00Z",
    metadata := { c1Meta with modified := "m1" }, full_content := none }

/-- Concrete configuration for the C1 examples. -/
def c1Config : Config :=
  { EXTERNAL_FEED_SOURCE := "src1", EXTERNAL_FEED_PLATFORM := "wordpress",
    EXTERNAL_FEED_TYPE := "article", FEED_ITEMS_PER_RUN := 5,
    FEED_MAX_TOTAL_ITEMS := 30 }

/-- Claim C1, counterexample: a stored row whose modified timestamp is NON
null and whose status is published is reset to pending by reconciliation,
while the claim says such a row keeps its prior status (pending is claimed
to be reserved for rows whose stored timestamp was null). -/
theorem claim_C1_counterexample :
    c1Row.item_modified_at = some "2024-01-02T00:00:00Z" ∧
    c1Item.item_modified_at = some "2024-01-03T00:00:00Z" ∧
    c1Row.status = Status.published ∧
    (insertItemDirect [c1Row] c1Item c1Config 9).1.map Row.status = [Status.pending] := by
  exact ⟨rfl, rfl, rfl, rfl⟩

/-- Claim C1, witness: the amended theorem applied at the concrete row of
the counterexample setup. -/
theorem claim_C1_witness :
    (insertItemDirect [c1Row] c1Item c1Config 9).2 = false ∧
    getItemByHash (insertItemDirect [c1Row] c1Item c1Config 9).1 "WordPress:p1" "src1" =
      some { c1Row with metadata := c1Item.metadata, full_content := none,
                        item_published_at := some "2024-01-01T00:00:00Z",
                        item_modified_at := some "2024-01-03T00:00:00Z",
                        status := Status.pending } := by
  have h := claim_C1_reconcile_update [c1Row] c1Item c1Config 9 c1Row rfl (by decide)
  exact ⟨h.1, h.2⟩

/-- Claim C2 (amended): insertItem establishes the pending invariant, and
updateItemStatus as the pipeline invokes it, published with processed data
or skipped with a reason, preserves the row invariants.  The reconciliation
reset of updateItem, however, rewrites status without clearing
processed_data, published_at or skipped_at, so a decided row reset to
pending violates the pending invariant; see the counterexample. -/
theorem claim_C2_store_invariants (db : List Row) (item : IngestItem) (config : Config)
    (contentHash source reason : String) (pd : NormPost) (now : Nat)
    (hdb : ∀ r ∈ db, rowInv r) :
    (∀ r2 ∈ insertItem db item config now, rowInv r2) ∧
    (∀ r2 ∈ updateItemStatus db contentHash source Status.published none (some pd) now,
      rowInv r2) ∧
    (∀ r2 ∈ updateItemStatus db contentHash source Status.skipped (some reason) none now,
      rowInv r2) := by
  refine ⟨?_, ?_, ?_⟩
  · intro r2 hr2
    rcases List.mem_append.mp hr2 with hl | hr
    · exact hdb r2 hl
    · have : r2 = { content_hash := item.content_hash,
                    source := config.EXTERNAL_FEED_SOURCE, guid := item.guid,
                    platform := config.EXTERNAL_FEED_PLATFORM,
                    feed_type := config.EXTERNAL_FEED_TYPE, status := Status.pending,
                    ingested_at := now, published_at := none, skipped_at := none,
                    skip_reason := none, metadata := item.metadata,
                    full_content := item.full_content, processed_data := none,
                    item_published_at := item.item_published_at,
                    item_modified_at := item.item_modified_at } := by
        simpa [insertItem] using hr
      rw [this]
      simp [rowInv]
  · intro r2 hr2
    rcases List.mem_map.mp hr2 with ⟨r, hmem, hmap⟩
    by_cases hk : r.content_hash = contentHash ∧ r.source = source
    · rw [if_pos hk] at hmap
      rw [← hmap]
      simp [rowInv]
    · rw [if_neg hk] at hmap
      rw [← hmap]
      exact hdb r hmem
  · intro r2 hr2
    rcases List.mem_map.mp hr2 with ⟨r, hmem, hmap⟩
    by_cases hk : r.content_hash = contentHash ∧ r.source = source
    · rw [if_pos hk] at hmap
      rw [← hmap]
      simp [rowInv]
    · rw [if_neg hk] at hmap
      rw [← hmap]
      exact hdb r hmem

/-- Concrete normalized post for the C2 examples. -/
def c2Norm : NormPost :=
  { title := "t", shortTitle := "t", description := none, content := "c",
    link := "l", guid := "p2", pubDate := 0, author := "a", categories := [],
    isSlideShow := false, thumbnail := none, featuredImage := none, images := [] }

/-- Concrete stored row for the C2 examples: a published row satisfying the
row invariants, with a non null stored modified timestamp. -/
def c2Row : Row :=
  { content_hash := "WordPress:p2", source := "src2", guid := "p2",
    platform := "wordpress", feed_type := "article", status := Status.published,
    ingested_at := 1, published_at := some 2, skipped_at := none,
    skip_reason := none,
    metadata := { id := "p2", title := "t", date := 0, modified := "m0",
                  link := "l", author := 1 },
    full_content := none, processed_data := some c2Norm,
    item_published_at := some "2024-02-01T00:00:00Z",
    item_modified_at := some "2024-02-02T00:00:00Z" }

/-- Concrete re-ingested item for the C2 examples. -/
def c2Item : IngestItem :=
  { guid := "p2", content_hash := "WordPress:p2",
    item_published_at := some "2024-02-01T00:00:00Z",
    item_modified_at := some "2024-02-03T00:00:00Z",
    metadata := { id := "p2", title := "t", date := 0, modified := "m1",
                  link := "l", author := 1 },
    full_content := none }

/-- Concrete configuration for the C2 examples. -/
def c2Config : Config :=
  { EXTERNAL_FEED_SOURCE := "src2", EXTERNAL_FEED_PLATFORM := "wordpress",
    EXTERNAL_FEED_TYPE := "article", FEED_ITEMS_PER_RUN := 5,
    FEED_MAX_TOTAL_ITEMS := 30 }

/-- The row the C2 counterexample reconciliation produces. -/
def c2RowAfter : Row :=
  { c2Row with
    metadata := c2Item.metadata,
    full_content := c2Item.full_content,
    item_published_at := c2Item.item_published_at,
    item_modified_at := c2Item.item_modified_at,
    status := Status.pending }

/-- Claim C2, counterexample: a published row satisfying the invariants is
reset to pending by reconciliation, yet keeps its processed_data and
published_at, so the pending invariant fails afterwards. -/
theorem claim_C2_counterexample :
    rowInv c2Row ∧ c2Row.status = Status.published ∧
    (insertItemDirect [c2Row] c2Item c2Config 9).1.map Row.status = [Status.pending] ∧
    ¬ (∀ r ∈ (insertItemDirect [c2Row] c2Item c2Config 9).1, rowInv r) := by
  refine ⟨by decide, rfl, rfl, ?_⟩
  intro hall
  have hlist : (insertItemDirect [c2Row] c2Item c2Config 9).1 = [c2RowAfter] := rfl
  have h1 := hall c2RowAfter (by rw [hlist]; exact List.mem_cons_self _ _)
  have h2 := (h1.2.2 rfl).1
  exact absurd h2 (by decide)

/-- Claim C2, witness: the amended theorem applied at a one row table. -/
theorem claim_C2_witness :
    (∀ r2 ∈ insertItem [c2Row] c2Item c2Config 9, rowInv r2) ∧
    (∀ r2 ∈ updateItemStatus [c2Row] "WordPress:p2" "src2" Status.published none
        (some c2Norm) 9, rowInv r2) ∧
    (∀ r2 ∈ updateItemStatus [c2Row] "WordPress:p2" "src2" Status.skipped
        (some "profanity") none 9, rowInv r2) := by
  exact claim_C2_store_invariants [c2Row] c2Item c2Config "WordPress:p2" "src2"
    "profanity" c2Norm 9 (by decide)

/-- Concrete row for the C4 failing input: the same upstream item stored
under source s1. -/
def c4Row1 : Row :=
  { content_hash := "WordPress:p4", source := "s1", guid := "p4",
    platform := "wordpress", feed_type := "article", status := Status.pending,
    ingested_at := 1, published_at := none, skipped_at := none,
    skip_reason := none,
    metadata := { id := "p4", title := "t", date := 0, modified := "m0",
                  link := "l", author := 1 },
    full_content := none, processed_data := none,
    item_published_at := some "2024-03-01T00:00:00Z",
    item_modified_at := some "2024-03-02T00:00:00Z" }

/-- Concrete row for the C4 failing input: the same upstream item stored
under the distinct source s2, already published there. -/
def c4Row2 : Row :=
  { c4Row1 with
    source := "s2",
    status := Status.published,
    published_at := some 3,
    metadata := { id := "p4", title := "t2", date := 0, modified := "m0",
                  link := "l", author := 1 } }

/-- Concrete re-ingested item for the C4 failing input, carrying a changed
modified timestamp for source s1. -/
def c4Item : IngestItem :=
  { guid := "p4", content_hash := "WordPress:p4",
    item_published_at := some "2024-03-01T00:00:00Z",
    item_modified_at := some "2024-03-03T00:00:00Z",
    metadata := { id := "p4", title := "t", date := 0, modified := "m1",
                  link := "l", author := 1 },
    full_content := none }

/-- Concrete configuration for the C4 failing input: the run reconciles
source s1 only. -/
def c4Config : Config :=
  { EXTERNAL_FEED_SOURCE := "s1", EXTERNAL_FEED_PLATFORM := "wordpress",
    EXTERNAL_FEED_TYPE := "article", FEED_ITEMS_PER_RUN := 5,
    FEED_MAX_TOTAL_ITEMS := 30 }

/-- Claim C4: the code slip evaluated at the failing input.  The WHERE
clause of updateItem matches on content_hash alone, so reconciling the item
for source s1 also rewrites the row of source s2: its status, metadata and
modified timestamp all change, although the unique key of the schema and
every other query scope rows by content_hash AND source. -/
theorem claim_C4_cross_source_clobber :
    c4Row2.source = "s2" ∧ c4Config.EXTERNAL_FEED_SOURCE = "s1" ∧
    c4Row2.status = Status.published ∧
    (insertItemDirect [c4Row1, c4Row2] c4Item c4Config 9).1.map Row.status =
      [Status.pending, Status.pending] ∧
    (insertItemDirect [c4Row1, c4Row2] c4Item c4Config 9).1.map Row.metadata =
      [c4Item.metadata, c4Item.metadata] ∧
    (insertItemDirect [c4Row1, c4Row2] c4Item c4Config 9).1.map Row.item_modified_at =
      [some "2024-03-03T00:00:00Z", some "2024-03-03T00:00:00Z"] := by
  exact ⟨rfl, rfl, rfl, rfl, rfl, rfl⟩

/-- Well formed raw record for the C3 examples. -/
def c3Good1 : RawRecord :=
  { id := "g1", date := 0, date_gmt := "2024-04-01T00:00:00", modified := "m",
    modified_gmt := "2024-04-01T00:00:00", slug := "s1", link := "l1", author := 1,
    guid_rendered := some "g1", title_rendered := some "t1",
    yoast_author := some "a", yoast_sections := some ["news"],
    yoast_thumbnail := some "u", content_rendered := none, excerpt_rendered := none }

/-- Second well formed raw record for the C3 examples. -/
def c3Good2 : RawRecord :=
  { c3Good1 with
    id := "g2",
    slug := "s2",
    link := "l2",
    guid_rendered := some "g2",
    title_rendered := some "t2" }

/-- Malformed raw record for the C3 examples: the yoast head object is
missing, so cleanPostContent reading through it throws. -/
def c3Bad : RawRecord :=
  { c3Good1 with
    id := "gbad",
    guid_rendered := some "gbad",
    yoast_author := none }

/-- Concrete configuration for the C3 examples. -/
def c3Config : Config :=
  { EXTERNAL_FEED_SOURCE := "src3", EXTERNAL_FEED_PLATFORM := "wordpress",
    EXTERNAL_FEED_TYPE := "article", FEED_ITEMS_PER_RUN := 5,
    FEED_MAX_TOTAL_ITEMS := 30 }

/-- Claim C3, counterexample: a page with one malformed record among well
formed ones makes ingest return the wrapped error instead of isolating the
record: nothing is counted and the page and run are aborted, where the
claim requires the record to be counted as seen, the rest of the page to be
ingested and no throw. -/
theorem claim_C3_counterexample :
    recordOk c3Bad = false ∧
    ingest c3Config 7 [[c3Good1, c3Bad, c3Good2]] [] =
      Except.error "WordPress ingestion failed: Cannot read properties of undefined" := by
  exact ⟨rfl, rfl⟩

/-- The record loop propagates the first cleaning error, after consuming
any well formed records before it. -/
lemma ingestPosts_error_of_bad (config : Config) (now : Nat) (bad : RawRecord)
    (suf : List RawRecord) (e : String) (hbad : cleanPostContent bad = .error e) :
    ∀ (pre : List RawRecord), (∀ rcd ∈ pre, recordOk rcd = true) →
      ∀ (db2 : List Row) (seen nw : Nat),
        ingestPosts config now (pre ++ bad :: suf) db2 seen nw = .error e := by
  intro pre
  induction pre with
  | nil =>
      intro _ db2 seen nw
      have hmk : mkIngestItem bad = .error e := by
        unfold mkIngestItem
        rw [hbad]
      simp [ingestPosts, hmk]
  | cons rcd rest ih =>
      intro hok db2 seen nw
      have hr := hok rcd (List.mem_cons_self rcd rest)
      unfold recordOk at hr
      rcases hcp : cleanPostContent rcd with e2 | c
      · rw [hcp] at hr
        simp at hr
      · have hmk : mkIngestItem rcd = .ok
            { guid := c.id, content_hash := generateHash wordPressDriver c.id,
              item_published_at := some (rcd.date_gmt ++ "Z"),
              item_modified_at := some (rcd.modified_gmt ++ "Z"),
              metadata := { id := c.id, title := c.title, date := rcd.date,
                            modified := rcd.modified, link := rcd.link,
                            author := rcd.author },
              full_content := some c } := by
          unfold mkIngestItem
          rw [hcp]
        simp only [List.cons_append, ingestPosts, hmk]
        exact ih (fun x hx => hok x (List.mem_cons_of_mem rcd hx)) _ _ _

/-- Claim C3 (amended): failure of a single record aborts the page and the
run: with any well formed records before it, a record whose cleaning throws
makes ingest rethrow the wrapped error; the failing record and everything
after it are not ingested and no counts are reported. -/
theorem claim_C3_record_failure_aborts (config : Config) (now : Nat) (db : List Row)
    (pre : List RawRecord) (bad : RawRecord) (suf : List RawRecord)
    (pages : List (List RawRecord)) (e : String)
    (hpre : ∀ rcd ∈ pre, recordOk rcd = true)
    (hbad : cleanPostContent bad = .error e) :
    ingest config now ((pre ++ bad :: suf) :: pages) db =
      .error ("WordPress ingestion failed: " ++ e) := by
  unfold ingest ingestPages
  rw [ingestPosts_error_of_bad config now bad suf e hbad pre hpre db 0 0]

/-- Claim C3, witness: the amended theorem applied at a concrete two page
fetch whose first page carries one well formed and one malformed record. -/
theorem claim_C3_witness :
    ingest c3Config 3 [[c3Good1, c3Bad], [c3Good2]] [] =
      Except.error "WordPress ingestion failed: Cannot read properties of undefined" := by
  exact claim_C3_record_failure_aborts c3Config 3 [] [c3Good1] c3Bad [] [[c3Good2]]
    "Cannot read properties of undefined"
    (by intro rcd hr
        simp only [List.mem_singleton] at hr
        subst hr
        rfl)
    rfl

/-- The intro anchor search resolves a decomposed top level: when a
size-large figure sits at the top level after nodes that neither are nor
contain such a figure, the preceding element siblings are returned, the
accumulated ones included. -/
lemma firstSLForest_of_split (fig : HNode) (suf : List HNode)
    (hfig : isSizeLargeFig fig = true) :
    ∀ (pre : List HNode), (∀ n ∈ pre, isSizeLargeFig n = false ∧ firstSLNode n = none) →
      ∀ (acc : List HNode),
        firstSLForest acc (pre ++ fig :: suf) =
          some ((acc.reverse ++ pre).filter isElem) := by
  intro pre
  induction pre with
  | nil =>
      intro _ acc
      simp [firstSLForest, hfig]
  | cons n rest ih =>
      intro hpre acc
      have hn := hpre n (List.mem_cons_self n rest)
      simp only [List.cons_append, firstSLForest, hn.1, hn.2, Bool.false_eq_true,
        if_false, List.append_eq]
      rw [ih (fun x hx => hpre x (List.mem_cons_of_mem n hx)) (n :: acc)]
      simp [List.append_assoc]

/-- Claim C5 (amended): the intro of a parsed slideshow is anchored on the
first figure.wp-block-image.size-large node, whether or not its image
resolves: the intro is the stripped text of the element siblings before
that node in the cleaned document, and when no size-large figure exists at
all the whole document text becomes the intro, even when the slide list,
which is anchored on the different selector figure.wp-block-image with a
resolvable image, is not empty.  The claimed anchoring on the first slide
anchor fails; see the counterexample. -/
theorem claim_C5_intro_anchor (body pre suf : List HNode) (fig : HNode)
    (hdoc : unwrapDivs (removeSidebars body) = pre ++ fig :: suf)
    (hfig : isSizeLargeFig fig = true)
    (hpre : ∀ n ∈ pre, isSizeLargeFig n = false ∧ firstSLNode n = none) :
    (parseSlideShow body).content = stripHtmlOf (pre.filter isElem) ∧
    (∀ body2, firstSLForest [] (unwrapDivs (removeSidebars body2)) = none →
      (parseSlideShow body2).content =
        stripHtmlOf (unwrapDivs (removeSidebars body2))) := by
  constructor
  · have hfs := firstSLForest_of_split fig suf hfig pre hpre []
    unfold parseSlideShow
    rw [hdoc]
    show stripHtmlOf
        (match firstSLForest [] (pre ++ fig :: suf) with
         | some prevs => prevs
         | none => pre ++ fig :: suf) = stripHtmlOf (pre.filter isElem)
    rw [hfs]
    simp
  · intro body2 hnone
    unfold parseSlideShow
    show stripHtmlOf
        (match firstSLForest [] (unwrapDivs (removeSidebars body2)) with
         | some prevs => prevs
         | none => unwrapDivs (removeSidebars body2)) =
      stripHtmlOf (unwrapDivs (removeSidebars body2))
    rw [hnone]

/-- Intro paragraph node of the C5 examples. -/
def c5Para1 : HNode := .elem "p" [] [] [.text "A"]

/-- Trailing paragraph node of the C5 examples. -/
def c5Para2 : HNode := .elem "p" [] [] [.text "B"]

/-- A slide anchor figure that is NOT size-large: its image resolves, so
the slide loop counts it, but the intro anchor search ignores it. -/
def c5FigPlain : HNode :=
  .elem "figure" ["wp-block-image"] [] [.elem "img" [] [("src", "u")] []]

/-- A size-large slide figure for the C5 witness. -/
def c5FigLarge : HNode :=
  .elem "figure" ["wp-block-image", "size-large"] [] [.elem "img" [] [("src", "v")] []]

/-- Counterexample body for C5: intro text, one resolvable slide figure
without size-large, trailing text. -/
def c5BodyX : List HNode := [c5Para1, c5FigPlain, c5Para2]

/-- Witness body for C5: intro text, a size-large slide figure, trailing
text. -/
def c5BodyW : List HNode := [c5Para1, c5FigLarge, c5Para2]

/-- Claim C5, counterexample: in a body whose first (and only) slide anchor
is a figure.wp-block-image with a resolvable image but without the
size-large class, the slide list is nonempty, yet the returned intro is the
stripped text of the WHOLE body, not of the content preceding the first
slide anchor, which the claim requires. -/
theorem claim_C5_counterexample :
    (parseSlideShow c5BodyX).images.length = 1 ∧
    stripHtmlOf (c5BodyX.take 1) = "A" ∧
    (parseSlideShow c5BodyX).content = "AB" ∧
    (parseSlideShow c5BodyX).content ≠ stripHtmlOf (c5BodyX.take 1) := by
  refine ⟨rfl, rfl, rfl, ?_⟩
  intro h
  exact absurd h (by decide)

/-- Claim C5, witness: the amended theorem applied at the witness body, in
both branches; the second branch is instantiated at the counterexample
body, which has no size-large figure. -/
theorem claim_C5_witness :
    unwrapDivs (removeSidebars c5BodyW) = [c5Para1] ++ c5FigLarge :: [c5Para2] ∧
    (parseSlideShow c5BodyW).content = stripHtmlOf [c5Para1] ∧
    (parseSlideShow c5BodyX).content = stripHtmlOf c5BodyX := by
  have h := claim_C5_intro_anchor c5BodyW [c5Para1] [c5Para2] c5FigLarge rfl rfl
    (by intro n hn
        simp only [List.mem_singleton] at hn
        subst hn
        exact ⟨rfl, rfl⟩)
  exact ⟨rfl, h.1, h.2 c5BodyX rfl⟩

/-- The comparator of the moving window sort: the JS comparison by date
difference orders most recent first. -/
def byDateDesc (a b : NormPost) : Bool :=
  decide (b.pubDate ≤ a.pubDate)

/-- Claim C6: the assembled feed window never exceeds maxTotal items; when
the combined candidates exceed maxTotal the result is exactly maxTotal
items, sorted by publish date descending, and they dominate the dropped
candidates in publish date; within the limit the result is the plain
concatenation with the newly published items first. -/
theorem claim_C6_moving_window (feedItems existingItems : List NormPost) (maxTotal : Nat) :
    (movingWindow feedItems existingItems maxTotal).length ≤ maxTotal ∧
    (maxTotal < (feedItems ++ existingItems).length →
      (movingWindow feedItems existingItems maxTotal).length = maxTotal ∧
      List.Pairwise (fun a b => b.pubDate ≤ a.pubDate)
        (movingWindow feedItems existingItems maxTotal) ∧
      ∃ dropped : List NormPost,
        (movingWindow feedItems existingItems maxTotal ++ dropped).Perm
          (feedItems ++ existingItems) ∧
        ∀ x ∈ movingWindow feedItems existingItems maxTotal, ∀ y ∈ dropped,
          y.pubDate ≤ x.pubDate) ∧
    ((feedItems ++ existingItems).length ≤ maxTotal →
      movingWindow feedItems existingItems maxTotal = feedItems ++ existingItems) := by
  have htrans : ∀ (a b c : NormPost), byDateDesc a b = true → byDateDesc b c = true →
      byDateDesc a c = true := by
    intro a b c hab hbc
    simp only [byDateDesc, decide_eq_true_eq] at *
    exact le_trans hbc hab
  have htotal : ∀ (a b : NormPost), (byDateDesc a b || byDateDesc b a) = true := by
    intro a b
    simp only [byDateDesc, Bool.or_eq_true, decide_eq_true_eq]
    exact le_total b.pubDate a.pubDate
  set all := feedItems ++ existingItems with hall
  have hsorted : List.Pairwise (fun a b => b.pubDate ≤ a.pubDate)
      (all.mergeSort byDateDesc) := by
    have := List.sorted_mergeSort htrans htotal all
    exact this.imp (fun h => by simpa [byDateDesc, decide_eq_true_eq] using h)
  have hperm : (all.mergeSort byDateDesc).Perm all := List.mergeSort_perm all byDateDesc
  have hlen : (all.mergeSort byDateDesc).length = all.length := List.length_mergeSort all
  by_cases hgt : maxTotal < all.length
  · have hwin : movingWindow feedItems existingItems maxTotal =
        (all.mergeSort byDateDesc).take maxTotal := by
      unfold movingWindow
      rw [if_pos hgt]
      rfl
    have hlen2 : ((all.mergeSort byDateDesc).take maxTotal).length = maxTotal := by
      rw [List.length_take, hlen]
      exact Nat.min_eq_left (Nat.le_of_lt hgt)
    refine ⟨?_, fun _ => ?_, fun hle => absurd hgt (not_lt.mpr hle)⟩
    · rw [hwin, hlen2]
    · refine ⟨by rw [hwin, hlen2], ?_, ?_⟩
      · rw [hwin]
        exact hsorted.sublist (List.take_sublist maxTotal _)
      · refine ⟨(all.mergeSort byDateDesc).drop maxTotal, ?_, ?_⟩
        · rw [hwin, List.take_append_drop]
          exact hperm
        · intro x hx y hy
          rw [hwin] at hx
          have hsplit := hsorted
          rw [← List.take_append_drop maxTotal (all.mergeSort byDateDesc)] at hsplit
          exact (List.pairwise_append.mp hsplit).2.2 x hx y hy
  · have hwin : movingWindow feedItems existingItems maxTotal = all := by
      unfold movingWindow
      rw [if_neg hgt]
    refine ⟨by rw [hwin]; exact not_lt.mp hgt, fun hlt => absurd hlt hgt, fun _ => hwin⟩

/-- Concrete normalized post for the C6 witness. -/
def c6Post (g : String) (d : Int) : NormPost :=
  { title := g, shortTitle := g, description := none, content := "", link := "",
    guid := g, pubDate := d, author := "", categories := [], isSlideShow := false,
    thumbnail := none, featuredImage := none, images := [] }

/-- Claim C6, witness: the theorem applied with one new and two existing
items against a window of two. -/
theorem claim_C6_witness :
    2 < ([c6Post "n" 5] ++ [c6Post "e1" 9, c6Post "e2" 1] : List NormPost).length ∧
    (movingWindow [c6Post "n" 5] [c6Post "e1" 9, c6Post "e2" 1] 2).length = 2 ∧
    List.Pairwise (fun a b => b.pubDate ≤ a.pubDate)
      (movingWindow [c6Post "n" 5] [c6Post "e1" 9, c6Post "e2" 1] 2) := by
  have h := claim_C6_moving_window [c6Post "n" 5] [c6Post "e1" 9, c6Post "e2" 1] 2
  have hlt : 2 < ([c6Post "n" 5] ++ [c6Post "e1" 9, c6Post "e2" 1] : List NormPost).length := by
    decide
  exact ⟨hlt, (h.2.1 hlt).1, (h.2.1 hlt).2.1⟩

/-- Claim C7: when fetching or normalizing a selected pending row throws,
the loop marks exactly that row skipped with reason error colon message and
a skip timestamp, increments the skipped count, leaves the processed count,
the in-run feed items and the processed hash list untouched, keeps every
other row as it was, and proceeds with the remaining rows instead of
aborting the batch. -/
theorem claim_C7_item_error_isolated (config : Config) (clean : NormPost → Bool)
    (now : Nat) (st : RunState) (item : Row) (rest : List Row) (msg : String)
    (hfail : fetchContent st.db item.content_hash config = .error msg) :
    runLoop config clean now st (item :: rest) =
      runLoop config clean now (processOne config clean now st item) rest ∧
    (processOne config clean now st item).skippedCount = st.skippedCount + 1 ∧
    (processOne config clean now st item).processedCount = st.processedCount ∧
    (processOne config clean now st item).feedItems = st.feedItems ∧
    (processOne config clean now st item).processedContentHashes =
      st.processedContentHashes ∧
    (∀ r ∈ st.db, ¬(r.content_hash = item.content_hash ∧ r.source = item.source) →
      r ∈ (processOne config clean now st item).db) ∧
    (∀ r2 ∈ (processOne config clean now st item).db,
      r2.content_hash = item.content_hash → r2.source = item.source →
        r2.status = Status.skipped ∧
        r2.skip_reason = some ("error: " ++ msg) ∧
        r2.skipped_at = some now) := by
  have hstep : processOne config clean now st item =
      { st with db := updateItemStatus st.db item.content_hash item.source Status.skipped
                  (some ("error: " ++ msg)) none now,
                skippedCount := st.skippedCount + 1 } := by
    unfold processOne
    rw [hfail]
  refine ⟨rfl, ?_, ?_, ?_, ?_, ?_, ?_⟩
  · rw [hstep]
  · rw [hstep]
  · rw [hstep]
  · rw [hstep]
  · intro r hr hnk
    rw [hstep]
    show r ∈ updateItemStatus st.db item.content_hash item.source Status.skipped
      (some ("error: " ++ msg)) none now
    unfold updateItemStatus
    have : (if r.content_hash = item.content_hash ∧ r.source = item.source then
        { r with status := Status.skipped,
                 published_at := if Status.skipped = Status.published then some now
                   else r.published_at,
                 skipped_at := if Status.skipped = Status.skipped then some now
                   else r.skipped_at,
                 skip_reason := if Status.skipped = Status.skipped then
                   some ("error: " ++ msg) else r.skip_reason,
                 processed_data := r.processed_data }
      else r) = r := if_neg hnk
    rw [← this]
    exact List.mem_map_of_mem _ hr
  · intro r2 hr2 hh hs
    rw [hstep] at hr2
    rcases List.mem_map.mp hr2 with ⟨r, hmem, hmap⟩
    by_cases hk : r.content_hash = item.content_hash ∧ r.source = item.source
    · rw [if_pos hk] at hmap
      rw [← hmap]
      exact ⟨rfl, rfl, rfl⟩
    · rw [if_neg hk] at hmap
      rw [← hmap] at hh hs
      exact absurd ⟨hh, hs⟩ hk

/-- Concrete row for the C7 witness: a pending row stored without full
content, so fetching it throws. -/
def c7Row : Row :=
  { content_hash := "WordPress:p7", source := "src7", guid := "p7",
    platform := "wordpress", feed_type := "article", status := Status.pending,
    ingested_at := 1, published_at := none, skipped_at := none,
    skip_reason := none,
    metadata := { id := "p7", title := "t", date := 0, modified := "m0",
                  link := "l", author := 1 },
    full_content := none, processed_data := none,
    item_published_at := some "2024-05-01T00:00:00Z",
    item_modified_at := some "2024-05-01T00:00:00Z" }

/-- Concrete configuration for the C7 witness. -/
def c7Config : Config :=
  { EXTERNAL_FEED_SOURCE := "src7", EXTERNAL_FEED_PLATFORM := "wordpress",
    EXTERNAL_FEED_TYPE := "article", FEED_ITEMS_PER_RUN := 5,
    FEED_MAX_TOTAL_ITEMS := 30 }

/-- Concrete loop state for the C7 witness. -/
def c7State : RunState :=
  { db := [c7Row], processedCount := 0, skippedCount := 0, feedItems := [],
    processedContentHashes := [] }

/-- The fetch error message of the C7 witness. -/
def c7Msg : String :=
  "WordPress content fetch failed: No full content stored for hash: WordPress:p7"

/-- Claim C7, witness: the theorem applied at a one row batch whose fetch
fails; the run ends with the row skipped and nothing published. -/
theorem claim_C7_witness :
    fetchContent c7State.db c7Row.content_hash c7Config = .error c7Msg ∧
    (runLoop c7Config (fun _ => true) 5 c7State [c7Row]).skippedCount = 1 ∧
    (runLoop c7Config (fun _ => true) 5 c7State [c7Row]).processedCount = 0 ∧
    (runLoop c7Config (fun _ => true) 5 c7State [c7Row]).feedItems = [] ∧
    (runLoop c7Config (fun _ => true) 5 c7State [c7Row]).db.map Row.skip_reason =
      [some ("error: " ++ c7Msg)] := by
  have h := claim_C7_item_error_isolated c7Config (fun _ => true) 5 c7State c7Row [] c7Msg rfl
  have hone : runLoop c7Config (fun _ => true) 5 c7State [c7Row] =
      processOne c7Config (fun _ => true) 5 c7State c7Row := h.1
  refine ⟨rfl, ?_, ?_, ?_, ?_⟩
  · rw [hone]
    exact h.2.1
  · rw [hone]
    exact h.2.2.1
  · rw [hone]
    exact h.2.2.2.1
  · rw [hone]
    rfl

/-- The item ingest builds for a record whose cleaning returned c. -/
def ingestedItemOf (post : RawRecord) (c : CleanedPost) : IngestItem :=
  { guid := c.id, content_hash := generateHash wordPressDriver c.id,
    item_published_at := some (post.date_gmt ++ "Z"),
    item_modified_at := some (post.modified_gmt ++ "Z"),
    metadata := { id := c.id, title := c.title, date := post.date,
                  modified := post.modified, link := post.link,
                  author := post.author },
    full_content := some c }

/-- The fresh row insertItem appends. -/
def insertedRow (item : IngestItem) (config : Config) (now : Nat) : Row :=
  { content_hash := item.content_hash, source := config.EXTERNAL_FEED_SOURCE,
    guid := item.guid, platform := config.EXTERNAL_FEED_PLATFORM,
    feed_type := config.EXTERNAL_FEED_TYPE, status := Status.pending,
    ingested_at := now, published_at := none, skipped_at := none,
    skip_reason := none, metadata := item.metadata,
    full_content := item.full_content, processed_data := none,
    item_published_at := item.item_published_at,
    item_modified_at := item.item_modified_at }

/-- insertItem in appended form. -/
lemma insertItem_eq (db : List Row) (item : IngestItem) (config : Config) (now : Nat) :
    insertItem db item config now = db ++ [insertedRow item config now] := rfl

/-- Cleaning keeps the record id. -/
lemma cleanPostContent_id (post : RawRecord) (c : CleanedPost)
    (h : cleanPostContent post = .ok c) : c.id = post.id := by
  unfold cleanPostContent at h
  split at h
  · injection h with h2
    subst h2
    rfl
  · exact Except.noConfusion h

/-- A record is well formed exactly when its cleaning succeeds. -/
lemma recordOk_iff (post : RawRecord) :
    recordOk post = true ↔ ∃ c, cleanPostContent post = .ok c := by
  unfold recordOk
  cases h : cleanPostContent post <;> simp [h]

/-- mkIngestItem on a record whose cleaning succeeds. -/
lemma mkIngestItem_of_ok (post : RawRecord) (c : CleanedPost)
    (h : cleanPostContent post = .ok c) :
    mkIngestItem post = .ok (ingestedItemOf post c) := by
  unfold mkIngestItem ingestedItemOf
  rw [h]

/-- The modelled content hash is injective in the guid. -/
lemma generateHash_inj (g1 g2 : String)
    (h : generateHash wordPressDriver g1 = generateHash wordPressDriver g2) :
    g1 = g2 := by
  unfold generateHash at h
  exact string_append_cancel_left _ g1 g2 h

/-- The record loop over pairwise distinct well formed records none of
which is already stored inserts all of them: every record counts as seen
and as new, and the rows added all belong to the configured source and
carry the hashes of the processed records. -/
lemma ingestPosts_all_fresh (config : Config) (now : Nat) :
    ∀ (records : List RawRecord) (db : List Row) (seen nw : Nat),
      (∀ rcd ∈ records, recordOk rcd = true) →
      (∀ rcd ∈ records, ∀ r ∈ db,
        ¬(r.content_hash = generateHash wordPressDriver rcd.id ∧
          r.source = config.EXTERNAL_FEED_SOURCE)) →
      (records.map RawRecord.id).Nodup →
      ∃ db2, ingestPosts config now records db seen nw =
          .ok (db2, seen + records.length, nw + records.length) ∧
        ∀ r ∈ db2, r ∈ db ∨ (r.source = config.EXTERNAL_FEED_SOURCE ∧
          ∃ rcd ∈ records, r.content_hash = generateHash wordPressDriver rcd.id) := by
  intro records
  induction records with
  | nil =>
      intro db seen nw _ _ _
      exact ⟨db, by simp [ingestPosts], fun r hr => Or.inl hr⟩
  | cons rcd rest ih =>
      intro db seen nw hok hfresh hnodup
      obtain ⟨c, hc⟩ := (recordOk_iff rcd).mp (hok rcd (List.mem_cons_self rcd rest))
      have hid : c.id = rcd.id := cleanPostContent_id rcd c hc
      have hmk := mkIngestItem_of_ok rcd c hc
      have hnone : getItemByHash db (generateHash wordPressDriver c.id)
          config.EXTERNAL_FEED_SOURCE = none := by
        rw [getItemByHash_none_iff, hid]
        exact hfresh rcd (List.mem_cons_self rcd rest)
      have hins : insertItemDirect db (ingestedItemOf rcd c) config now =
          (db ++ [insertedRow (ingestedItemOf rcd c) config now], true) := by
        unfold insertItemDirect
        rw [show (ingestedItemOf rcd c).content_hash =
          generateHash wordPressDriver c.id from rfl, hnone, insertItem_eq]
      have hfresh2 : ∀ rcd2 ∈ rest,
          ∀ r ∈ db ++ [insertedRow (ingestedItemOf rcd c) config now],
          ¬(r.content_hash = generateHash wordPressDriver rcd2.id ∧
            r.source = config.EXTERNAL_FEED_SOURCE) := by
        intro rcd2 hr2 r hr
        rcases List.mem_append.mp hr with hl | hr1
        · exact hfresh rcd2 (List.mem_cons_of_mem rcd hr2) r hl
        · simp only [List.mem_singleton] at hr1
          subst hr1
          rintro ⟨hh, -⟩
          have hid2 := generateHash_inj c.id rcd2.id hh
          rw [hid] at hid2
          exact (List.nodup_cons.mp hnodup).1
            (hid2 ▸ List.mem_map_of_mem RawRecord.id hr2)
      obtain ⟨db2, hrun, hchar⟩ := ih (db ++ [insertedRow (ingestedItemOf rcd c) config now])
        (seen + 1) (nw + 1) (fun x hx => hok x (List.mem_cons_of_mem rcd hx)) hfresh2
        ((List.nodup_cons.mp hnodup).2)
      refine ⟨db2, ?_, ?_⟩
      · simp only [ingestPosts, hmk, hins]
        have e1 : seen + (rcd :: rest).length = seen + 1 + rest.length := by
          simp only [List.length_cons]
          omega
        have e2 : nw + (rcd :: rest).length = nw + 1 + rest.length := by
          simp only [List.length_cons]
          omega
        rw [e1, e2]
        exact hrun
      · intro r hr
        rcases hchar r hr with hin | hnew
        · rcases List.mem_append.mp hin with hl | hr1
          · exact Or.inl hl
          · simp only [List.mem_singleton] at hr1
            subst hr1
            refine Or.inr ⟨rfl, rcd, List.mem_cons_self rcd rest, ?_⟩
            rw [show (insertedRow (ingestedItemOf rcd c) config now).content_hash =
              generateHash wordPressDriver c.id from rfl, hid]
        · rcases hnew with ⟨hs, rcd2, hr2, hh⟩
          exact Or.inr ⟨hs, rcd2, List.mem_cons_of_mem rcd hr2, hh⟩

/-- Claim C8: a source triple with zero stored rows is a new source, so the
publication phase asks for pending items with the fixed onboarding ceiling
of 20 instead of FEED_ITEMS_PER_RUN; and ingesting 25 pairwise distinct
well formed upstream records across 2 pages into such an empty source
reports totalNew = 25 (and totalIngested = 25 over 2 pages). -/
theorem claim_C8_new_source_limit (config : Config) (now : Nat) (db : List Row)
    (p1 p2 : List RawRecord)
    (hsrc : ∀ r ∈ db, r.source ≠ config.EXTERNAL_FEED_SOURCE)
    (hok : ∀ rcd ∈ p1 ++ p2, recordOk rcd = true)
    (hnodup : ((p1 ++ p2).map RawRecord.id).Nodup)
    (hlen : (p1 ++ p2).length = 25) :
    isNewSource db config = true ∧
    processingLimit (isNewSource db config) config = 20 ∧
    ∃ db2, ingest config now [p1, p2] db =
      .ok (db2, { totalIngested := 25, totalNew := 25, pagesProcessed := 2 }) := by
  have hnew : isNewSource db config = true := by
    unfold isNewSource
    have hfil : db.filter (fun r => decide (r.source = config.EXTERNAL_FEED_SOURCE ∧
        r.platform = config.EXTERNAL_FEED_PLATFORM ∧
        r.feed_type = config.EXTERNAL_FEED_TYPE)) = [] := by
      rw [List.filter_eq_nil_iff]
      intro r hr
      simp only [decide_eq_true_eq]
      rintro ⟨h1, -, -⟩
      exact hsrc r hr h1
    rw [hfil]
    rfl
  refine ⟨hnew, by rw [hnew]; rfl, ?_⟩
  rw [List.map_append] at hnodup
  obtain ⟨hnd1, hnd2, hdisj⟩ := List.nodup_append.mp hnodup
  have hok1 : ∀ rcd ∈ p1, recordOk rcd = true :=
    fun rcd hr => hok rcd (List.mem_append.mpr (Or.inl hr))
  have hok2 : ∀ rcd ∈ p2, recordOk rcd = true :=
    fun rcd hr => hok rcd (List.mem_append.mpr (Or.inr hr))
  have hfresh1 : ∀ rcd ∈ p1, ∀ r ∈ db,
      ¬(r.content_hash = generateHash wordPressDriver rcd.id ∧
        r.source = config.EXTERNAL_FEED_SOURCE) := by
    intro rcd _ r hr
    rintro ⟨-, hs⟩
    exact hsrc r hr hs
  obtain ⟨db1, hrun1, hchar1⟩ := ingestPosts_all_fresh config now p1 db 0 0 hok1 hfresh1 hnd1
  have hfresh2 : ∀ rcd2 ∈ p2, ∀ r ∈ db1,
      ¬(r.content_hash = generateHash wordPressDriver rcd2.id ∧
        r.source = config.EXTERNAL_FEED_SOURCE) := by
    intro rcd2 hr2 r hr
    rintro ⟨hh, hs⟩
    rcases hchar1 r hr with hin | ⟨-, rcd1, hr1, hh1⟩
    · exact hsrc r hin hs
    · rw [hh] at hh1
      have := generateHash_inj rcd2.id rcd1.id hh1
      exact hdisj (List.mem_map_of_mem RawRecord.id hr1)
        (this ▸ List.mem_map_of_mem RawRecord.id hr2)
  obtain ⟨db2, hrun2, -⟩ := ingestPosts_all_fresh config now p2 db1 p1.length p1.length
    hok2 hfresh2 hnd2
  have h25 : p1.length + p2.length = 25 := by
    rw [← List.length_append]
    exact hlen
  simp only [Nat.zero_add] at hrun1
  refine ⟨db2, ?_⟩
  unfold ingest ingestPages
  rw [hrun1]
  show (match ingestPages config now [p2] db1 p1.length p1.length with
        | Except.error e =>
            (Except.error ("WordPress ingestion failed: " ++ e) :
              Except String (List Row × IngestResult))
        | Except.ok (db3, seen, nw) =>
            Except.ok (db3, { totalIngested := seen, totalNew := nw,
                              pagesProcessed := [p1, p2].length })) =
      Except.ok (db2, { totalIngested := 25, totalNew := 25, pagesProcessed := 2 })
  unfold ingestPages
  rw [hrun2, h25]
  rfl

/-- Well formed raw record template for the C8 witness. -/
def c8Rec (g : String) : RawRecord :=
  { id := g, date := 0, date_gmt := "2024-06-01T00:00:00", modified := "m",
    modified_gmt := "2024-06-01T00:00:00", slug := g, link := g, author := 1,
    guid_rendered := some g, title_rendered := some g,
    yoast_author := some "a", yoast_sections := some ["news"],
    yoast_thumbnail := some "u", content_rendered := none, excerpt_rendered := none }

/-- First upstream page of the C8 witness: 13 records. -/
def c8Page1 : List RawRecord :=
  [c8Rec "a01", c8Rec "a02", c8Rec "a03", c8Rec "a04", c8Rec "a05", c8Rec "a06",
   c8Rec "a07", c8Rec "a08", c8Rec "a09", c8Rec "a10", c8Rec "a11", c8Rec "a12",
   c8Rec "a13"]

/-- Second upstream page of the C8 witness: 12 records. -/
def c8Page2 : List RawRecord :=
  [c8Rec "a14", c8Rec "a15", c8Rec "a16", c8Rec "a17", c8Rec "a18", c8Rec "a19",
   c8Rec "a20", c8Rec "a21", c8Rec "a22", c8Rec "a23", c8Rec "a24", c8Rec "a25"]

/-- Concrete configuration for the C8 witness. -/
def c8Config : Config :=
  { EXTERNAL_FEED_SOURCE := "src8", EXTERNAL_FEED_PLATFORM := "wordpress",
    EXTERNAL_FEED_TYPE := "article", FEED_ITEMS_PER_RUN := 5,
    FEED_MAX_TOTAL_ITEMS := 30 }

/-- Claim C8, witness: the theorem applied at an empty table and 25
distinct records over two pages. -/
theorem claim_C8_witness :
    isNewSource [] c8Config = true ∧
    processingLimit (isNewSource [] c8Config) c8Config = 20 ∧
    c8Config.FEED_ITEMS_PER_RUN = 5 ∧
    ∃ db2, ingest c8Config 4 [c8Page1, c8Page2] [] =
      .ok (db2, { totalIngested := 25, totalNew := 25, pagesProcessed := 2 }) := by
  have h := claim_C8_new_source_limit c8Config 4 [] c8Page1 c8Page2
    (by intro r hr; exact absurd hr (List.not_mem_nil r))
    (by decide) (by decide) (by decide)
  exact ⟨h.1, h.2.1, rfl, h.2.2⟩

end Feed
